import Mathlib

/-!
Shallow embedding of the STADVDB_Ecommerce_OLAP repository's ETL transform
layer (`etl/transform/*.py`, `etl/transform.py`), its warehouse loader
(`etl/load.py`) and the aggregate measures of the dashboard's OLAP query
layer (`app/queries/olap_queries.py`, `app/queries/slice_queries.py`).

Conventions used throughout:
* A pandas `DataFrame` becomes a `List` of row structures; a nullable cell
  becomes an `Option`.
* Numeric cells are modelled exactly over `ℚ`; a field documented as the
  result of `pd.to_numeric(..., errors='coerce')` holds `some q` when the
  raw cell parses to the number `q` and `none` when it is null/unparseable.
* `numpy`/pandas `.round(2)` is round-half-to-even at two decimals.
* `.astype(int)` on a float column truncates toward zero.
-/

/-- Round a rational to the nearest integer, ties to even
(the rounding used by `numpy`/pandas `.round`). -/
def roundHalfEvenInt (x : ℚ) : ℤ :=
  let f : ℤ := ⌊x⌋
  let frac : ℚ := x - (f : ℚ)
  if frac < 1/2 then f
  else if 1/2 < frac then f + 1
  else if f % 2 = 0 then f else f + 1

/-- pandas `Series.round(2)`: round half-to-even at two decimal places. -/
def round2 (x : ℚ) : ℚ := (roundHalfEvenInt (100 * x) : ℚ) / 100

/-- `.astype(int)` on a float value: truncation toward zero. -/
def truncToInt (x : ℚ) : ℤ := if 0 ≤ x then ⌊x⌋ else -⌊-x⌋

/-- Column mean as pandas computes it: the mean over the non-null entries,
itself null (`NaN`) when every entry is null. -/
def colMean (xs : List (Option ℚ)) : Option ℚ :=
  let vals := xs.filterMap id
  if vals.length = 0 then none else some (vals.sum / (vals.length : ℚ))

/-! ## Calendar dates (`etl/transform/utils.py`: `parse_date_formats`) -/

/-- A calendar date as carried by a pandas `Timestamp` (time-of-day is always
midnight for the date columns this pipeline parses). -/
structure Date where
  year : ℕ
  month : ℕ
  day : ℕ
deriving Repr, DecidableEq

/-- Gregorian leap-year test. -/
def isLeapYear (y : ℕ) : Bool := (y % 4 == 0 && y % 100 != 0) || y % 400 == 0

/-- Days in a month of the Gregorian calendar. -/
def daysInMonth (y m : ℕ) : ℕ :=
  if m = 2 then (if isLeapYear y then 29 else 28)
  else if m = 4 ∨ m = 6 ∨ m = 9 ∨ m = 11 then 30 else 31

/-- The integer `YYYYMMDD` encoding of a date (`strftime('%Y%m%d')` followed
by an integer cast, for the 4-digit years a pandas `Timestamp` can hold). -/
def dateKeyInt (d : Date) : ℤ := (d.year : ℤ) * 10000 + (d.month : ℤ) * 100 + (d.day : ℤ)

/-- Validity of a parsed date, including the representability bounds of a
nanosecond pandas `Timestamp` (midnight of the date must lie between
`Timestamp.min` ≈ 1677-09-21T00:12 and `Timestamp.max` ≈ 2262-04-11T23:47,
so the representable midnights are 1677-09-22 through 2262-04-11);
out-of-bounds dates raise and are treated as parse failures. -/
def validTimestampDate (y m d : ℕ) : Bool :=
  1 ≤ m && m ≤ 12 && 1 ≤ d && d ≤ daysInMonth y m
    && 16770922 ≤ y * 10000 + m * 100 + d && y * 10000 + m * 100 + d ≤ 22620411

/-- Build a date when in range, as `datetime`/`Timestamp` construction does. -/
def mkValidDate (y m d : ℕ) : Option Date :=
  if validTimestampDate y m d then some ⟨y, m, d⟩ else none

/-- Split a character list at every occurrence of `sep`, as `str.split` does
(so `"a-b"` gives two fields, a leading/trailing/double separator gives an
empty field). -/
def splitOnChar (sep : Char) : List Char → List (List Char)
  | [] => [[]]
  | c :: rest =>
    if c = sep then [] :: splitOnChar sep rest
    else
      match splitOnChar sep rest with
      | w :: ws => (c :: w) :: ws
      | [] => [[c]]

/-- A `strptime` numeric field of at most `maxLen` digits. -/
def parseNatField (cs : List Char) (maxLen : ℕ) : Option ℕ :=
  if cs ≠ [] ∧ cs.length ≤ maxLen ∧ cs.all Char.isDigit then
    some (cs.foldl (fun a c => 10 * a + (c.toNat - 48)) 0)
  else none

/-- A `strptime` `%Y` field: exactly four digits. -/
def parseYearField (cs : List Char) : Option ℕ :=
  if cs.length = 4 then parseNatField cs 4 else none

/-- `pd.to_datetime(s, format='%Y-%m-%d')`. -/
def parseFmtYMD (s : String) : Option Date :=
  match splitOnChar '-' s.data with
  | [ys, ms, ds] =>
    match parseYearField ys, parseNatField ms 2, parseNatField ds 2 with
    | some y, some m, some d => mkValidDate y m d
    | _, _, _ => none
  | _ => none

/-- `pd.to_datetime(s, format='%m/%d/%Y')`. -/
def parseFmtMDYSlash (s : String) : Option Date :=
  match splitOnChar '/' s.data with
  | [ms, ds, ys] =>
    match parseYearField ys, parseNatField ms 2, parseNatField ds 2 with
    | some y, some m, some d => mkValidDate y m d
    | _, _, _ => none
  | _ => none

/-- `pd.to_datetime(s, format='%m-%d-%Y')`. -/
def parseFmtMDYDash (s : String) : Option Date :=
  match splitOnChar '-' s.data with
  | [ms, ds, ys] =>
    match parseYearField ys, parseNatField ms 2, parseNatField ds 2 with
    | some y, some m, some d => mkValidDate y m d
    | _, _, _ => none
  | _ => none

/-- `etl/transform/utils.py` `parse_date_formats`: a non-string cell is `NaT`;
otherwise the formats `%Y-%m-%d`, `%m/%d/%Y`, `%m-%d-%Y` are tried in order
and the first success wins, `NaT` on total failure.  `none` models both a
non-string input cell and `NaT`. -/
def parse_date_formats (v : Option String) : Option Date :=
  match v with
  | none => none
  | some s => ((parseFmtYMD s).orElse fun _ => (parseFmtMDYSlash s).orElse fun _ => parseFmtMDYDash s)

/-! ## `etl/transform.py`, `etl/transform/utils.py`: `standardize_gender` -/

/-- The literal `gender_map` dictionary of `standardize_gender`. -/
def gender_map : List (String × String) :=
  [("m", "Male"), ("male", "Male"), ("f", "Female"), ("female", "Female")]

/-- Python `str.lower()` as the pipeline relies on it: per-character ASCII
case mapping (every token the gender and vehicle dictionaries hold is
ASCII). -/
def strLower (s : String) : String := ⟨s.data.map Char.toLower⟩

/-- `standardize_gender` applied to one cell: `series.str.lower().map(gender_map)`
followed by `.fillna('Other')`.  A null (or non-string) cell is `none` and the
`.str` accessor keeps it null, so it falls through to `'Other'`. -/
def standardize_gender (v : Option String) : String :=
  (((v.map strLower).bind fun s => gender_map.lookup s).getD "Other")

/-! ## `etl/transform/dim_rider.py`: `transform_dim_rider` -/

/-- Does the character list start with `FEDEZ`, compared case-insensitively?
This is the per-position match test of the compiled pattern
`re.compile(re.escape('FEDEZ'), re.IGNORECASE)` that pandas builds for
`Series.str.replace('FEDEZ', 'FEDEX', case=False)`. -/
def fedezHead (l : List Char) : Bool :=
  (l.take 5).map Char.toLower == ['f', 'e', 'd', 'e', 'z']

/-- Left-to-right, non-overlapping replacement of every case-insensitive
occurrence of `FEDEZ` by `FEDEX`, as `re.sub` performs it. -/
def replaceFedez : List Char → List Char
  | a :: b :: c :: d :: e :: rest =>
    if fedezHead (a :: b :: c :: d :: e :: rest) then
      'F' :: 'E' :: 'D' :: 'E' :: 'X' :: replaceFedez rest
    else a :: replaceFedez (b :: c :: d :: e :: rest)
  | l => l

/-- Does the character list contain a case-insensitive occurrence of `FEDEZ`
anywhere? -/
def hasFedez : List Char → Bool
  | [] => false
  | c :: rest => fedezHead (c :: rest) || hasFedez rest

/-- The courier-name correction of `transform_dim_rider`:
`.str.replace('FEDEZ', 'FEDEX', case=False)` on one cell. -/
def fedez_to_fedex (s : String) : String := ⟨replaceFedez s.data⟩

/-- The literal `vehicle_map` dictionary of `transform_dim_rider`. -/
def vehicle_map : List (String × String) :=
  [("motorbike", "Motorcycle"), ("bike", "Bicycle"), ("trike", "Tricycle"), ("car", "Car")]

/-- Vehicle-type normalization of `transform_dim_rider`:
`.str.strip().str.lower().replace(vehicle_map).str.capitalize()`. -/
def normalizeVehicle (s : String) : String :=
  ((vehicle_map.lookup (strLower s.trim)).getD (strLower s.trim)).capitalize

/-- A raw rider row after the `id → rider_key` rename. -/
structure RiderRaw where
  rider_key : Option ℤ
  rider_name : String
  vehicleType : Option String
  gender : Option String
  age : ℤ
  courier_name : Option String

/-- A cleaned `dim_rider` row (the projected output column set). -/
structure RiderDim where
  rider_key : Option ℤ
  rider_name : String
  vehicleType : Option String
  gender : String
  age : ℤ
  courier_name : Option String

/-- `etl/transform/dim_rider.py` `transform_dim_rider`: `None` input passes
through; otherwise gender is standardized, courier names get the
`FEDEZ → FEDEX` correction (null courier cells stay null, as `.str.replace`
propagates `NaN`), vehicle types are normalized, and the output columns are
projected. -/
def transform_dim_rider (df : Option (List RiderRaw)) : Option (List RiderDim) :=
  match df with
  | none => none
  | some rows => some <| rows.map fun r =>
      { rider_key := r.rider_key
        rider_name := r.rider_name
        vehicleType := r.vehicleType.map normalizeVehicle
        gender := standardize_gender r.gender
        age := r.age
        courier_name := r.courier_name.map fedez_to_fedex }

/-! ## `etl/transform/dim_product.py`: duplicate handling of `transform_dim_product` -/

/-- A product row at the point the "Handle duplicates" block of
`transform_dim_product` runs: columns are renamed, and the text columns
(`product_name`, `category`, `product_code`) have been through
`.astype(str).str.strip()`, which turns a null into the literal string
`"nan"` — so at dedup time those three columns are never null.
`updated_at` is still the raw update stamp; it is modelled as an integer
timestamp, present on every row (the claims under study concern rows that
carry timestamps). -/
structure ProductRow where
  product_key : Option ℤ
  product_name : String
  category : String
  product_code : String
  price : Option ℚ
  created_at : Option ℤ
  updated_at : ℤ
deriving Repr, DecidableEq

/-- `df.notna().sum(axis=1)`: the number of non-null cells of the row.  The
three text columns and `updated_at` always count; the remaining columns
count when present. -/
def non_null_count (r : ProductRow) : ℕ :=
  (if r.product_key.isSome then 1 else 0) + (if r.price.isSome then 1 else 0)
    + (if r.created_at.isSome then 1 else 0) + 4

/-- The row order produced by
`sort_values(by=["product_code", "non_null_count", "updated_at"],
ascending=[True, False, False])`: `product_code` ascending (Python strings
compare lexicographically by code point, i.e. as the underlying character
lists), then `non_null_count` descending, then `updated_at` descending. -/
def dedupLE (a b : ProductRow) : Prop :=
  a.product_code.data < b.product_code.data
    ∨ (a.product_code = b.product_code
        ∧ (non_null_count b < non_null_count a
            ∨ (non_null_count a = non_null_count b ∧ b.updated_at ≤ a.updated_at)))

instance : DecidableRel dedupLE := fun a b => by unfold dedupLE; infer_instance

/-- `drop_duplicates(subset=["product_code"], keep="first")`: keep the first
row of each `product_code`, scanning in order, `seen` being the codes already
emitted. -/
def drop_duplicates_by_code : List ProductRow → List String → List ProductRow
  | [], _ => []
  | r :: rest, seen =>
    if r.product_code ∈ seen then drop_duplicates_by_code rest seen
    else r :: drop_duplicates_by_code rest (r.product_code :: seen)

/-- The "Handle duplicates" block of `transform_dim_product` (lines 28–34):
sort by `(product_code asc, non_null_count desc, updated_at desc)` and keep
the first row of each `product_code`. -/
def transform_dim_product_dedup (df : List ProductRow) : List ProductRow :=
  drop_duplicates_by_code (df.insertionSort dedupLE) []

/-! ## `etl/transform/fact_sales.py`: `transform_fact_sales` -/

/-- A raw sales row after the column renames of `transform_fact_sales`
(`userId → customer_key`, `ProductId → product_key`,
`deliveryRiderId → rider_key`, `deliveryDate → date_key`,
`price → unit_price`, `orderNumber → order_number`).  The three key columns
and the measures hold the value `pd.to_numeric` coercion yields for the raw
cell (`none` for null/unparseable); `date_key` still holds the raw delivery
date, `none` for a null or non-string cell. -/
structure SalesRaw where
  customer_key : Option ℤ
  product_key : Option ℤ
  rider_key : Option ℤ
  date_key : Option String
  order_number : String
  quantity : Option ℚ
  unit_price : Option ℚ

/-- A sales row between `_calculate_sales_measures` and
`_standardize_sales_date`: `sales_amount` has been derived, the date is raw. -/
structure SalesMeasured where
  customer_key : Option ℤ
  product_key : Option ℤ
  rider_key : Option ℤ
  date_raw : Option String
  order_number : String
  quantity : Option ℚ
  unit_price : Option ℚ
  sales_amount : Option ℚ

/-- A sales row after `_standardize_sales_date`: `date_key` is now a
non-nullable integer (`0` for unparseable dates). -/
structure SalesWork where
  customer_key : Option ℤ
  product_key : Option ℤ
  rider_key : Option ℤ
  date_key : ℤ
  order_number : String
  quantity : Option ℚ
  unit_price : Option ℚ
  sales_amount : Option ℚ

/-- `_calculate_sales_measures`: coerce `quantity`/`unit_price` to numeric
(already reflected in the field types) and set
`sales_amount = (quantity * unit_price).round(2)`, the product being null
when either factor is null. -/
def _calculate_sales_measures (df : List SalesRaw) : List SalesMeasured :=
  df.map fun r =>
    { customer_key := r.customer_key
      product_key := r.product_key
      rider_key := r.rider_key
      date_raw := r.date_key
      order_number := r.order_number
      quantity := r.quantity
      unit_price := r.unit_price
      sales_amount :=
        match r.quantity, r.unit_price with
        | some q, some p => some (round2 (q * p))
        | _, _ => none }

/-- The per-cell work of `_standardize_sales_date`: `parse_date_formats`,
`strftime('%Y%m%d')`, numeric coercion (`NaT → NaN`), then
`.fillna(0).astype(int)` — a parsed date becomes its `YYYYMMDD` integer,
everything else becomes `0`. -/
def _standardize_sales_date_key (v : Option String) : ℤ :=
  match parse_date_formats v with
  | some d => dateKeyInt d
  | none => 0

/-- `_standardize_sales_date` over the whole table. -/
def _standardize_sales_date (df : List SalesMeasured) : List SalesWork :=
  df.map fun r =>
    { customer_key := r.customer_key
      product_key := r.product_key
      rider_key := r.rider_key
      date_key := _standardize_sales_date_key r.date_raw
      order_number := r.order_number
      quantity := r.quantity
      unit_price := r.unit_price
      sales_amount := r.sales_amount }

/-- One iteration of the `numeric_cols` loop of `_transform_missing_values`
for `col = 'quantity'`: `if df[col].isnull().any(): df[col] =
df[col].fillna(df[col].mean())` (filling with a null mean keeps the cell
null, since the mean of an all-null column is itself `NaN`). -/
def fillColQuantity (df : List SalesWork) : List SalesWork :=
  if (df.map fun r => r.quantity).any Option.isNone then
    let m := colMean (df.map fun r => r.quantity)
    df.map fun r => { r with quantity := r.quantity.orElse fun _ => m }
  else df

/-- The `numeric_cols` loop iteration for `col = 'unit_price'`. -/
def fillColUnitPrice (df : List SalesWork) : List SalesWork :=
  if (df.map fun r => r.unit_price).any Option.isNone then
    let m := colMean (df.map fun r => r.unit_price)
    df.map fun r => { r with unit_price := r.unit_price.orElse fun _ => m }
  else df

/-- The `numeric_cols` loop iteration for `col = 'sales_amount'`. -/
def fillColSalesAmount (df : List SalesWork) : List SalesWork :=
  if (df.map fun r => r.sales_amount).any Option.isNone then
    let m := colMean (df.map fun r => r.sales_amount)
    df.map fun r => { r with sales_amount := r.sales_amount.orElse fun _ => m }
  else df

/-- The `dropna(subset=key_cols)` predicate: all three foreign keys present. -/
def keysPresent (r : SalesWork) : Bool :=
  r.customer_key.isSome && r.product_key.isSome && r.rider_key.isSome

/-- `_transform_missing_values`: for each of `quantity`, `unit_price`,
`sales_amount` in order, a column with any null is filled with the column
mean; then rows with a null `customer_key`, `product_key` or `rider_key` are
dropped.  This version (`etl/transform/fact_sales.py` lines 31–41) performs
no date-key imputation: `date_key` is already a non-nullable integer here. -/
def _transform_missing_values (df : List SalesWork) : List SalesWork :=
  (fillColSalesAmount (fillColUnitPrice (fillColQuantity df))).filter keysPresent

/-- The row-level composition of `_calculate_sales_measures` and
`_standardize_sales_date`: what those two steps make of one input row. -/
def pipeRowOf (r : SalesRaw) : SalesWork :=
  { customer_key := r.customer_key
    product_key := r.product_key
    rider_key := r.rider_key
    date_key := _standardize_sales_date_key r.date_key
    order_number := r.order_number
    quantity := r.quantity
    unit_price := r.unit_price
    sales_amount :=
      match r.quantity, r.unit_price with
      | some q, some p => some (round2 (q * p))
      | _, _ => none }

/-- A finished `fact_sales` row: the projected output column set, with the
key columns, `date_key` and `quantity` coerced to non-nullable integers. -/
structure FactRow where
  customer_key : ℤ
  product_key : ℤ
  rider_key : ℤ
  date_key : ℤ
  order_number : String
  quantity : ℤ
  unit_price : Option ℚ
  sales_amount : Option ℚ
deriving Repr, DecidableEq

/-- `transform_fact_sales` (`etl/transform/fact_sales.py`): `None` input
passes through; otherwise measures are derived, the delivery date becomes the
integer `date_key`, missing values are imputed and incomplete-key rows
dropped, and finally the key columns, `date_key` and `quantity` go through
`pd.to_numeric(...).fillna(0).astype(int)` (a no-op on the already-integer
keys apart from `fillna(0)`, truncation toward zero on `quantity`). -/
def transform_fact_sales (df : Option (List SalesRaw)) : Option (List FactRow) :=
  match df with
  | none => none
  | some rows =>
    let m := _transform_missing_values (_standardize_sales_date (_calculate_sales_measures rows))
    some <| m.map fun r =>
      { customer_key := r.customer_key.getD 0
        product_key := r.product_key.getD 0
        rider_key := r.rider_key.getD 0
        date_key := r.date_key
        order_number := r.order_number
        quantity := truncToInt (r.quantity.getD 0)
        unit_price := r.unit_price
        sales_amount := r.sales_amount }

/-! ## `etl/transform/dim_date.py`: `transform_dim_date` -/

/-- Sakamoto's day-of-week algorithm, shifted to the pandas
`Series.dt.dayofweek` convention Monday = 0 … Sunday = 6. -/
def dayOfWeekMon0 (dt : Date) : ℕ :=
  let t := [0, 3, 2, 5, 0, 3, 5, 1, 4, 6, 2, 4]
  let y := if dt.month < 3 then dt.year - 1 else dt.year
  (y + y / 4 - y / 100 + y / 400 + t.getD (dt.month - 1) 0 + dt.day + 6) % 7

/-- English day names indexed by Monday = 0, as `Series.dt.day_name()`. -/
def dayNameOf (dt : Date) : String :=
  ["Monday", "Tuesday", "Wednesday", "Thursday", "Friday", "Saturday",
    "Sunday"].getD (dayOfWeekMon0 dt) ""

/-- English month names indexed from 1, as `Series.dt.month_name()`. -/
def monthNameOf (dt : Date) : String :=
  ["January", "February", "March", "April", "May", "June", "July", "August",
    "September", "October", "November", "December"].getD (dt.month - 1) ""

/-- One output row of `transform_dim_date`. -/
structure DimDateRow where
  date_key : ℤ
  full_date : Date
  day_name : String
  month_name : String
  day : ℕ
  month : ℕ
  year : ℕ
  is_weekend : String
deriving Repr, DecidableEq

/-- `transform_dim_date` (`etl/transform/dim_date.py`): `None` or empty input
yields `None`; otherwise each `full_date` (already a valid datetime after
`pd.to_datetime`) is expanded into `date_key` (`strftime('%Y%m%d')` cast to
int), day/month names, numeric parts, and the weekend flag
(`dayofweek ∈ {5, 6} → "Y"`). -/
def transform_dim_date (df : Option (List Date)) : Option (List DimDateRow) :=
  match df with
  | none => none
  | some dates =>
    if dates.isEmpty then none
    else some <| dates.map fun dt =>
      { date_key := dateKeyInt dt
        full_date := dt
        day_name := dayNameOf dt
        month_name := monthNameOf dt
        day := dt.day
        month := dt.month
        year := dt.year
        is_weekend := if dayOfWeekMon0 dt = 5 ∨ dayOfWeekMon0 dt = 6 then "Y" else "N" }

/-! ## `etl/load.py`: `load_to_warehouse` -/

/-- Python truthiness of an `os.getenv` result: `None` and the empty string
are falsy. -/
def envTruthy : Option String → Bool
  | none => false
  | some s => !(s == "")

/-- The warehouse-connection environment read by `load_to_warehouse`. -/
structure LoadEnv where
  db_user : Option String
  db_password : Option String
  db_host : Option String
  warehouse_db_name : Option String

/-- An observable database interaction of `load_to_warehouse`. -/
inductive DbAction where
  | connect
  | beginTx
  | truncate (table : String)
  | write (table : String) (ifExists : String)
  | commit
deriving Repr, DecidableEq

/-- How a `load_to_warehouse` call returned.  Every path returns normally (the
one `try` block catches its own exceptions and rolls back); the constructors
record which path ran and what was printed for it. -/
inductive LoadResult where
  | skippedNone (printed : String)
  | skippedConfig (printed : String)
  | loaded
deriving Repr, DecidableEq

/-- `load_to_warehouse` (`etl/load.py`): a `None` frame is a printed no-op
skip; incomplete connection configuration (`not all([...])` over the four
environment values) is a printed early return; otherwise it connects, opens a
transaction, truncates first for `fact_sales` (append strategy) while
dimensions are replaced, writes, and commits.  The returned pair is the
outcome and the ordered database interactions performed. -/
def load_to_warehouse {α : Type} (df : Option α) (table_name : String)
    (env : LoadEnv) : LoadResult × List DbAction :=
  match df with
  | none => (.skippedNone "No data to load. Skipping.", [])
  | some _ =>
    if !(envTruthy env.db_user && envTruthy env.db_password && envTruthy env.db_host
          && envTruthy env.warehouse_db_name) then
      (.skippedConfig "Error: Warehouse environment variables are not fully set.", [])
    else if table_name = "fact_sales" then
      (.loaded, [.connect, .beginTx, .truncate table_name, .write table_name "append", .commit])
    else
      (.loaded, [.connect, .beginTx, .write table_name "replace", .commit])

/-! ## OLAP query measures

A `GROUP BY` bucket of joined `fact_sales` rows is a `List FactLine`; the
measure expressions of each query function are modelled per bucket.  SQL
`COUNT(DISTINCT e)` counts the distinct non-null values, `COUNT(e)` the
non-null rows (`order_number` is never null in a loaded fact table),
`AVG(e) = SUM(e)/COUNT(e)`, and aggregates over an empty bucket are `NULL` —
though `GROUP BY` buckets are nonempty by construction. -/

/-- A joined fact row as the OLAP queries see it. -/
structure FactLine where
  order_number : String
  sales_amount : ℚ
  quantity : ℤ
deriving Repr, DecidableEq

/-- SQL `COUNT(DISTINCT fs.order_number)` over a bucket. -/
def count_distinct_order_number (g : List FactLine) : ℕ :=
  ((g.map fun r => r.order_number).dedup).length

/-- SQL `COUNT(fs.order_number)` over a bucket (no `DISTINCT`). -/
def count_order_number (g : List FactLine) : ℕ := g.length

/-- SQL `SUM(fs.sales_amount)` over a bucket. -/
def sum_sales_amount (g : List FactLine) : ℚ := (g.map fun r => r.sales_amount).sum

/-- SQL `AVG(fs.sales_amount)` over a bucket: `NULL` on an empty bucket. -/
def avg_sales_amount (g : List FactLine) : Option ℚ :=
  if g.length = 0 then none else some (sum_sales_amount g / (g.length : ℚ))

namespace olap_queries

/-- `app/queries/olap_queries.py` `rollup_sales_by_year`:
`COUNT(DISTINCT fs.order_number) AS total_orders`. -/
def rollup_sales_by_year_total_orders (g : List FactLine) : ℕ :=
  count_distinct_order_number g

/-- `app/queries/olap_queries.py` `rollup_sales_by_year`:
`AVG(fs.sales_amount) AS avg_order_value`. -/
def rollup_sales_by_year_avg_order_value (g : List FactLine) : Option ℚ :=
  avg_sales_amount g

end olap_queries

namespace slice_queries

/-- `app/queries/slice_queries.py` `slice_by_courier`:
`COUNT(fs.order_number) AS total_orders` (no `DISTINCT`). -/
def slice_by_courier_total_orders (g : List FactLine) : ℕ :=
  count_order_number g

/-- `app/queries/slice_queries.py` `slice_by_courier`:
`AOV_EXPR = "SUM(fs.sales_amount)/NULLIF(COUNT(fs.order_number),0)"`;
a zero count is turned into `NULL` by `NULLIF`, making the division `NULL`. -/
def slice_by_courier_avg_order_value (g : List FactLine) : Option ℚ :=
  if count_order_number g = 0 then none
  else some (sum_sales_amount g / (count_order_number g : ℚ))

end slice_queries

namespace rollup_queries

/-- `app/queries/rollup_queries.py`: every roll-up function's
`COUNT(DISTINCT fs.order_number) AS total_orders` (lines 21/51/80/110/141). -/
def total_orders (g : List FactLine) : ℕ := count_distinct_order_number g

/-- `app/queries/rollup_queries.py` line 9:
`AOV_EXPR = "SUM(fs.sales_amount)/NULLIF(COUNT(DISTINCT fs.order_number),0)"`. -/
def avg_order_value (g : List FactLine) : Option ℚ :=
  if count_distinct_order_number g = 0 then none
  else some (sum_sales_amount g / (count_distinct_order_number g : ℚ))

end rollup_queries

namespace drilldown_queries

/-- `app/queries/drilldown_queries.py`: every drill-down function's
`COUNT(DISTINCT fs.order_number) AS total_orders` (lines 23/55/87/118/152). -/
def total_orders (g : List FactLine) : ℕ := count_distinct_order_number g

/-- `app/queries/drilldown_queries.py` line 9:
`AOV_EXPR = "SUM(fs.sales_amount)/NULLIF(COUNT(DISTINCT fs.order_number),0)"`. -/
def avg_order_value (g : List FactLine) : Option ℚ :=
  if count_distinct_order_number g = 0 then none
  else some (sum_sales_amount g / (count_distinct_order_number g : ℚ))

end drilldown_queries

namespace pivot_queries

/-- `app/queries/pivot_queries.py`: the pivot functions that report an order
count use `COUNT(DISTINCT fs.order_number) AS total_orders` (lines 50/78);
none reports an average order value. -/
def total_orders (g : List FactLine) : ℕ := count_distinct_order_number g

end pivot_queries

namespace user_queries

/-- `app/queries/user_queries.py` line 29:
`COUNT(DISTINCT fs.order_number) AS total_orders`. -/
def total_orders (g : List FactLine) : ℕ := count_distinct_order_number g

end user_queries

namespace dice_queries

/-- `app/queries/dice_queries.py` `dice_multi_dimension`: both CTE variants
compute `COUNT(fs.order_number) AS total_orders` — no `DISTINCT`. -/
def dice_multi_dimension_total_orders (g : List FactLine) : ℕ :=
  count_order_number g

/-- `app/queries/dice_queries.py` line 13:
`AOV_EXPR = "SUM(fs.sales_amount)/NULLIF(COUNT(DISTINCT fs.order_number),0)"`
— the divisor is the distinct order count, not the plain-count
`total_orders` column the same query reports. -/
def dice_multi_dimension_avg_order_value (g : List FactLine) : Option ℚ :=
  if count_distinct_order_number g = 0 then none
  else some (sum_sales_amount g / (count_distinct_order_number g : ℚ))

end dice_queries

/-- A one-line-item bucket of order `ORD-1`. -/
def sampleBucket : List FactLine := [⟨"ORD-1", 10, 1⟩]

/-- A second line item of the same order `ORD-1`. -/
def sampleLine : FactLine := ⟨"ORD-1", 20, 1⟩


/-! ## Claim theorems: gender, loader, and order-count measures -/

/-- C7: gender normalization is total: every input in `{m, M, male, Male}`
maps to `Male`, every input in `{f, F, female, Female}` maps to `Female`, and
any other input, including null, maps to `Other`, without ever raising (the
embedding is a total function). -/
theorem gender_normalization_total (s : String)
    (h : strLower s ∉ ["m", "male", "f", "female"]) :
    (∀ x ∈ ["m", "M", "male", "Male"], standardize_gender (some x) = "Male")
    ∧ (∀ x ∈ ["f", "F", "female", "Female"], standardize_gender (some x) = "Female")
    ∧ standardize_gender (some s) = "Other"
    ∧ standardize_gender none = "Other" := by
  refine ⟨by decide, by decide, ?_, rfl⟩
  obtain ⟨h1, h2, h3, h4⟩ : ¬strLower s = "m" ∧ ¬strLower s = "male"
      ∧ ¬strLower s = "f" ∧ ¬strLower s = "female" := by simpa using h
  simp [standardize_gender, gender_map, List.lookup,
    beq_eq_false_iff_ne.mpr h1, beq_eq_false_iff_ne.mpr h2,
    beq_eq_false_iff_ne.mpr h3, beq_eq_false_iff_ne.mpr h4]

/-- Witness for the gender-normalization theorem at the input `"xyz"`. -/
theorem gender_normalization_total_witness :
    strLower "xyz" ∉ ["m", "male", "f", "female"]
    ∧ standardize_gender (some "xyz") = "Other" :=
  ⟨by decide, (gender_normalization_total "xyz" (by decide)).2.2.1⟩

/-- C9: a `None` input table passes through each transformer unchanged, and
the loader treats a `None` frame as a printed no-op skip, performing no
database interaction. -/
theorem none_input_noop :
    transform_fact_sales none = none
    ∧ transform_dim_rider none = none
    ∧ transform_dim_date none = none
    ∧ ∀ (table : String) (env : LoadEnv),
        load_to_warehouse (α := List FactRow) none table env
          = (.skippedNone "No data to load. Skipping.", []) :=
  ⟨rfl, rfl, rfl, fun _ _ => rfl⟩

/-- C10: when any of the four warehouse environment variables is unset,
`load_to_warehouse` returns normally with only a printed message and performs
no database interaction, even on a present (`some`) frame. -/
theorem missing_env_skips_load {α : Type} (df : α) (table : String) (env : LoadEnv)
    (h : env.db_user = none ∨ env.db_password = none ∨ env.db_host = none
          ∨ env.warehouse_db_name = none) :
    load_to_warehouse (some df) table env
      = (.skippedConfig "Error: Warehouse environment variables are not fully set.", []) := by
  unfold load_to_warehouse
  rcases h with h | h | h | h <;> simp [h, envTruthy]

/-- Witness for the missing-environment theorem: unset `DB_USER`, non-empty
frame. -/
theorem missing_env_skips_load_witness :
    load_to_warehouse (some [(⟨1, 2, 3, 20210102, "ORD-1", 1, some 5, some 5⟩ : FactRow)])
        "dim_rider" ⟨none, some "pw", some "host", some "wh"⟩
      = (.skippedConfig "Error: Warehouse environment variables are not fully set.", []) :=
  missing_env_skips_load _ "dim_rider" ⟨none, some "pw", some "host", some "wh"⟩ (Or.inl rfl)

/-- C1 counterexample: in `slice_queries.py`, `slice_by_courier` counts
`total_orders` with a plain `COUNT(fs.order_number)`, so a two-line order
counts twice (`2 ≠ 1 = COUNT(DISTINCT ...)`); and in `olap_queries.py`,
`rollup_sales_by_year` computes `avg_order_value` as `AVG(fs.sales_amount)`
(here `15`), not as `total_sales / NULLIF(total_orders, 0)` (here `30`). -/
theorem order_count_counterexample :
    slice_queries.slice_by_courier_total_orders
        [⟨"ORD-1", 10, 1⟩, ⟨"ORD-1", 20, 1⟩] = 2
    ∧ count_distinct_order_number [⟨"ORD-1", 10, 1⟩, ⟨"ORD-1", 20, 1⟩] = 1
    ∧ (2 : ℕ) ≠ 1
    ∧ olap_queries.rollup_sales_by_year_avg_order_value
        [⟨"ORD-1", 10, 1⟩, ⟨"ORD-1", 20, 1⟩] = some 15
    ∧ sum_sales_amount [⟨"ORD-1", 10, 1⟩, ⟨"ORD-1", 20, 1⟩]
        / (olap_queries.rollup_sales_by_year_total_orders
            [⟨"ORD-1", 10, 1⟩, ⟨"ORD-1", 20, 1⟩] : ℚ) = 30
    ∧ (15 : ℚ) ≠ 30 := by
  refine ⟨rfl, by decide, by decide, ?_, ?_, by norm_num⟩
  · show avg_sales_amount _ = some 15
    norm_num [avg_sales_amount, sum_sales_amount]
  · norm_num [sum_sales_amount, olap_queries.rollup_sales_by_year_total_orders,
      count_distinct_order_number, List.dedup]

/-- The `COUNT(DISTINCT order_number)` measure ignores a line item of an
order already present in the bucket. -/
lemma count_distinct_cons_of_mem (g : List FactLine) (r : FactLine)
    (h : r.order_number ∈ g.map fun x => x.order_number) :
    count_distinct_order_number (r :: g) = count_distinct_order_number g := by
  simp only [count_distinct_order_number, List.map_cons]
  rw [List.dedup_cons_of_mem h]

/-- A nonempty bucket has a positive distinct order count. -/
lemma count_distinct_cons_pos (g : List FactLine) (r : FactLine) :
    0 < count_distinct_order_number (r :: g) := by
  simp only [count_distinct_order_number, List.map_cons]
  refine List.length_pos.mpr ?_
  rw [ne_eq, List.dedup_eq_nil]
  simp

/-- The distinct order count never exceeds the plain row count. -/
lemma count_distinct_le_length (g : List FactLine) :
    count_distinct_order_number g ≤ g.length := by
  simp only [count_distinct_order_number]
  calc ((g.map fun x => x.order_number).dedup).length
      ≤ (g.map fun x => x.order_number).length :=
        (List.dedup_sublist _).length_le
    _ = g.length := List.length_map _ _

/-- C1 amended: adding a line item of an order already present in the bucket
leaves `total_orders` unchanged in `olap_queries.py`, `rollup_queries.py`,
`drilldown_queries.py`, `pivot_queries.py` and `user_queries.py` (all
`COUNT(DISTINCT order_number)`), but increments it in
`slice_queries.py` and `dice_queries.py` (plain `COUNT(order_number)`, one
per line item).  The average-order-value is the null-guarded
`SUM/NULLIF(COUNT(DISTINCT ...), 0)` — i.e. total sales over that module's
own `total_orders` — in `rollup_queries.py` and `drilldown_queries.py`;
`slice_queries.slice_by_courier` divides by `NULLIF` of its plain count;
`dice_queries.dice_multi_dimension` divides by the distinct count, which
differs from the plain-count `total_orders` column it reports whenever a
multi-line order is present; and `olap_queries.py` computes
`AVG(sales_amount)`, the per-line-item average. -/
theorem order_count_amended (g : List FactLine) (r : FactLine)
    (h : r.order_number ∈ g.map fun x => x.order_number) :
    (olap_queries.rollup_sales_by_year_total_orders (r :: g)
        = olap_queries.rollup_sales_by_year_total_orders g
      ∧ rollup_queries.total_orders (r :: g) = rollup_queries.total_orders g
      ∧ drilldown_queries.total_orders (r :: g) = drilldown_queries.total_orders g
      ∧ pivot_queries.total_orders (r :: g) = pivot_queries.total_orders g
      ∧ user_queries.total_orders (r :: g) = user_queries.total_orders g)
    ∧ (slice_queries.slice_by_courier_total_orders (r :: g)
        = slice_queries.slice_by_courier_total_orders g + 1
      ∧ dice_queries.dice_multi_dimension_total_orders (r :: g)
        = dice_queries.dice_multi_dimension_total_orders g + 1)
    ∧ (rollup_queries.avg_order_value (r :: g)
        = some (sum_sales_amount (r :: g) / (rollup_queries.total_orders (r :: g) : ℚ))
      ∧ drilldown_queries.avg_order_value (r :: g)
        = some (sum_sales_amount (r :: g) / (drilldown_queries.total_orders (r :: g) : ℚ))
      ∧ slice_queries.slice_by_courier_avg_order_value (r :: g)
        = some (sum_sales_amount (r :: g)
            / (slice_queries.slice_by_courier_total_orders (r :: g) : ℚ)))
    ∧ (dice_queries.dice_multi_dimension_avg_order_value (r :: g)
        = some (sum_sales_amount (r :: g) / (count_distinct_order_number (r :: g) : ℚ))
      ∧ count_distinct_order_number (r :: g)
          ≠ dice_queries.dice_multi_dimension_total_orders (r :: g))
    ∧ olap_queries.rollup_sales_by_year_avg_order_value (r :: g)
      = some (sum_sales_amount (r :: g) / (count_order_number (r :: g) : ℚ)) := by
  have hpos := count_distinct_cons_pos g r
  have hinv := count_distinct_cons_of_mem g r h
  refine ⟨⟨hinv, hinv, hinv, hinv, hinv⟩, ⟨?_, ?_⟩, ⟨?_, ?_, ?_⟩, ⟨?_, ?_⟩, ?_⟩
  · simp [slice_queries.slice_by_courier_total_orders, count_order_number]
  · simp [dice_queries.dice_multi_dimension_total_orders, count_order_number]
  · simp only [rollup_queries.avg_order_value, rollup_queries.total_orders]
    rw [if_neg (by omega)]
  · simp only [drilldown_queries.avg_order_value, drilldown_queries.total_orders]
    rw [if_neg (by omega)]
  · simp only [slice_queries.slice_by_courier_avg_order_value,
      slice_queries.slice_by_courier_total_orders, count_order_number,
      List.length_cons, Nat.succ_ne_zero, if_false, Nat.cast_add, Nat.cast_one]
  · simp only [dice_queries.dice_multi_dimension_avg_order_value]
    rw [if_neg (by omega)]
  · have hle := count_distinct_le_length g
    simp only [dice_queries.dice_multi_dimension_total_orders, count_order_number,
      List.length_cons]
    omega
  · simp only [olap_queries.rollup_sales_by_year_avg_order_value, avg_sales_amount,
      count_order_number, List.length_cons, Nat.succ_ne_zero, if_false]

/-- Witness for the amended order-count theorem on a bucket holding two line
items of order `ORD-1`. -/
theorem order_count_amended_witness :
    (olap_queries.rollup_sales_by_year_total_orders (sampleLine :: sampleBucket)
        = olap_queries.rollup_sales_by_year_total_orders sampleBucket
      ∧ rollup_queries.total_orders (sampleLine :: sampleBucket)
          = rollup_queries.total_orders sampleBucket
      ∧ drilldown_queries.total_orders (sampleLine :: sampleBucket)
          = drilldown_queries.total_orders sampleBucket
      ∧ pivot_queries.total_orders (sampleLine :: sampleBucket)
          = pivot_queries.total_orders sampleBucket
      ∧ user_queries.total_orders (sampleLine :: sampleBucket)
          = user_queries.total_orders sampleBucket)
    ∧ (slice_queries.slice_by_courier_total_orders (sampleLine :: sampleBucket)
        = slice_queries.slice_by_courier_total_orders sampleBucket + 1
      ∧ dice_queries.dice_multi_dimension_total_orders (sampleLine :: sampleBucket)
        = dice_queries.dice_multi_dimension_total_orders sampleBucket + 1)
    ∧ (rollup_queries.avg_order_value (sampleLine :: sampleBucket)
        = some (sum_sales_amount (sampleLine :: sampleBucket)
            / (rollup_queries.total_orders (sampleLine :: sampleBucket) : ℚ))
      ∧ drilldown_queries.avg_order_value (sampleLine :: sampleBucket)
        = some (sum_sales_amount (sampleLine :: sampleBucket)
            / (drilldown_queries.total_orders (sampleLine :: sampleBucket) : ℚ))
      ∧ slice_queries.slice_by_courier_avg_order_value (sampleLine :: sampleBucket)
        = some (sum_sales_amount (sampleLine :: sampleBucket)
            / (slice_queries.slice_by_courier_total_orders
                (sampleLine :: sampleBucket) : ℚ)))
    ∧ (dice_queries.dice_multi_dimension_avg_order_value (sampleLine :: sampleBucket)
        = some (sum_sales_amount (sampleLine :: sampleBucket)
            / (count_distinct_order_number (sampleLine :: sampleBucket) : ℚ))
      ∧ count_distinct_order_number (sampleLine :: sampleBucket)
          ≠ dice_queries.dice_multi_dimension_total_orders (sampleLine :: sampleBucket))
    ∧ olap_queries.rollup_sales_by_year_avg_order_value (sampleLine :: sampleBucket)
      = some (sum_sales_amount (sampleLine :: sampleBucket)
          / (count_order_number (sampleLine :: sampleBucket) : ℚ)) :=
  order_count_amended sampleBucket sampleLine (by decide)

/-! ## Lemmas on the FEDEZ → FEDEX correction -/

/-- One-step unfolding of `hasFedez`. -/
lemma hasFedez_cons (c : Char) (t : List Char) :
    hasFedez (c :: t) = (fedezHead (c :: t) || hasFedez t) := rfl

/-- One-step unfolding of `replaceFedez` on a list of five or more chars. -/
lemma replaceFedez_cons5 (a b c d e : Char) (t : List Char) :
    replaceFedez (a :: b :: c :: d :: e :: t)
      = if fedezHead (a :: b :: c :: d :: e :: t) then
          'F' :: 'E' :: 'D' :: 'E' :: 'X' :: replaceFedez t
        else a :: replaceFedez (b :: c :: d :: e :: t) := rfl

/-- `fedezHead` on five explicit leading characters. -/
lemma fedezHead_cons5_iff (a b c d e : Char) (t : List Char) :
    fedezHead (a :: b :: c :: d :: e :: t) = true
      ↔ a.toLower = 'f' ∧ b.toLower = 'e' ∧ c.toLower = 'd' ∧ d.toLower = 'e'
          ∧ e.toLower = 'z' := by
  simp [fedezHead]

/-- `fedezHead` in terms of the head character and the next four. -/
lemma fedezHead_cons_iff (a : Char) (w : List Char) :
    fedezHead (a :: w) = true
      ↔ a.toLower = 'f' ∧ (w.take 4).map Char.toLower = ['e', 'd', 'e', 'z'] := by
  simp [fedezHead]

/-- A list whose head does not lower to `f` cannot start an occurrence. -/
lemma fedezHead_head_ne (a : Char) (t : List Char) (h : ¬a.toLower = 'f') :
    fedezHead (a :: t) = false := by
  rw [Bool.eq_false_iff, ne_eq, fedezHead_cons_iff]
  rintro ⟨haf, -⟩
  exact h haf

/-- The emitted `FEDEX` block does not itself start an occurrence. -/
lemma fedezHead_block (w : List Char) :
    fedezHead ('F' :: 'E' :: 'D' :: 'E' :: 'X' :: w) = false := by
  rw [Bool.eq_false_iff, ne_eq, fedezHead_cons5_iff]
  decide

/-- Fewer than five characters cannot hold an occurrence of `FEDEZ`. -/
lemma fedezHead_short (l : List Char) (h : l.length < 5) : fedezHead l = false := by
  rw [Bool.eq_false_iff, ne_eq]
  simp only [fedezHead, beq_iff_eq]
  intro hc
  have hl := congrArg List.length hc
  simp only [List.length_map, List.length_take, List.length_cons, List.length_nil] at hl
  omega

/-- `hasFedez` is false on lists shorter than five characters. -/
lemma hasFedez_short : ∀ l : List Char, l.length < 5 → hasFedez l = false
  | [], _ => rfl
  | c :: t, h => by
    rw [hasFedez_cons, fedezHead_short _ h, Bool.false_or]
    exact hasFedez_short t (by simp only [List.length_cons] at h; omega)

/-- How the correction relates an input character to the character left at
its position: the letter is preserved up to case, except that the final `z`
of a matched occurrence becomes `X`. -/
def lowerRel (a b : Char) : Prop :=
  b.toLower = a.toLower ∨ (a.toLower = 'z' ∧ b.toLower = 'x')

lemma lowerRel_refl_list : ∀ l : List Char, List.Forall₂ lowerRel l l
  | [] => .nil
  | _ :: t => .cons (Or.inl rfl) (lowerRel_refl_list t)

/-- The correction relates every input character to its output character. -/
lemma replaceFedez_rel : ∀ l : List Char, List.Forall₂ lowerRel l (replaceFedez l)
  | a :: b :: c :: d :: e :: rest => by
    by_cases h : fedezHead (a :: b :: c :: d :: e :: rest) = true
    · obtain ⟨ha, hb, hc', hd, he⟩ := (fedezHead_cons5_iff a b c d e rest).mp h
      rw [replaceFedez_cons5, if_pos h]
      exact .cons (Or.inl (by rw [ha]; decide))
        (.cons (Or.inl (by rw [hb]; decide))
          (.cons (Or.inl (by rw [hc']; decide))
            (.cons (Or.inl (by rw [hd]; decide))
              (.cons (Or.inr ⟨he, by decide⟩) (replaceFedez_rel rest)))))
    · rw [replaceFedez_cons5, if_neg h]
      exact .cons (Or.inl rfl) (replaceFedez_rel (b :: c :: d :: e :: rest))
  | [] => lowerRel_refl_list []
  | [a] => lowerRel_refl_list [a]
  | [a, b] => lowerRel_refl_list [a, b]
  | [a, b, c] => lowerRel_refl_list [a, b, c]
  | [a, b, c, d] => lowerRel_refl_list [a, b, c, d]

lemma forall₂_lowerRel_take (n : ℕ) {t w : List Char}
    (hf : List.Forall₂ lowerRel t w) :
    List.Forall₂ lowerRel (t.take n) (w.take n) := by
  induction hf generalizing n with
  | nil => simp only [List.take_nil]; exact List.Forall₂.nil
  | cons r _ ih =>
    rcases n with _ | n
    · exact .nil
    · simp only [List.take_succ_cons]
      exact .cons r (ih n)

/-- A lowered character string without an `x` pulls back through `lowerRel`:
if the output side lowers to `target`, so does the input side. -/
lemma lowerRel_map_back {t w : List Char} (hf : List.Forall₂ lowerRel t w) :
    ∀ target : List Char, 'x' ∉ target → w.map Char.toLower = target →
      t.map Char.toLower = target := by
  induction hf with
  | nil => exact fun _ _ h => h
  | cons r _ ih =>
    rintro (_ | ⟨tc, target⟩) hx h
    · simp at h
    · simp only [List.map_cons, List.cons.injEq] at h ⊢
      obtain ⟨hb, hrest⟩ := h
      simp only [List.mem_cons, not_or] at hx
      refine ⟨?_, ih target hx.2 hrest⟩
      rcases r with hr | ⟨-, hbx⟩
      · rw [← hr, hb]
      · exact absurd (hb ▸ hbx).symm hx.1

/-- Match failure at a position is preserved by correcting the tail. -/
lemma fedezHead_cons_replace (a : Char) (t : List Char)
    (h : fedezHead (a :: t) = false) : fedezHead (a :: replaceFedez t) = false := by
  rw [Bool.eq_false_iff, ne_eq, fedezHead_cons_iff] at h ⊢
  rintro ⟨haf, hm⟩
  exact h ⟨haf,
    lowerRel_map_back (forall₂_lowerRel_take 4 (replaceFedez_rel t)) _ (by decide) hm⟩

/-- The corrected string holds no case-insensitive occurrence of `FEDEZ`. -/
lemma hasFedez_replace : ∀ l : List Char, hasFedez (replaceFedez l) = false
  | a :: b :: c :: d :: e :: rest => by
    by_cases h : fedezHead (a :: b :: c :: d :: e :: rest) = true
    · rw [replaceFedez_cons5, if_pos h]
      rw [hasFedez_cons, hasFedez_cons, hasFedez_cons, hasFedez_cons, hasFedez_cons]
      rw [fedezHead_block, fedezHead_head_ne 'E' _ (by decide),
        fedezHead_head_ne 'D' _ (by decide), fedezHead_head_ne 'E' _ (by decide),
        fedezHead_head_ne 'X' _ (by decide), hasFedez_replace rest]
      rfl
    · rw [replaceFedez_cons5, if_neg h]
      rw [hasFedez_cons,
        fedezHead_cons_replace a _ (Bool.eq_false_iff.mpr h),
        hasFedez_replace (b :: c :: d :: e :: rest)]
      rfl
  | [] => rfl
  | [a] => hasFedez_short [a] (by simp)
  | [a, b] => hasFedez_short [a, b] (by simp)
  | [a, b, c] => hasFedez_short [a, b, c] (by simp)
  | [a, b, c, d] => hasFedez_short [a, b, c, d] (by simp)

/-- The correction leaves occurrence-free strings unchanged. -/
lemma replaceFedez_no_occurrence : ∀ l : List Char, hasFedez l = false → replaceFedez l = l
  | a :: b :: c :: d :: e :: rest, h => by
    rw [hasFedez_cons, Bool.or_eq_false_iff] at h
    rw [replaceFedez_cons5, if_neg (by simp [h.1]),
      replaceFedez_no_occurrence (b :: c :: d :: e :: rest) h.2]
  | [], _ => rfl
  | [a], _ => rfl
  | [a, b], _ => rfl
  | [a, b, c], _ => rfl
  | [a, b, c, d], _ => rfl

/-- C8: the courier-name correction of `transform_dim_rider` is total (a Lean
function on all strings), removes every case-insensitive occurrence of
`FEDEZ` (replacing each by `FEDEX` as `replaceFedez` emits it), is the map
the transformer applies to the courier column, and is idempotent. -/
theorem courier_correction_idempotent (s : String) :
    hasFedez (fedez_to_fedex s).data = false
    ∧ fedez_to_fedex (fedez_to_fedex s) = fedez_to_fedex s
    ∧ ∀ rows : List RiderRaw,
        ((transform_dim_rider (some rows)).getD []).map (fun r => r.courier_name)
          = rows.map fun r => r.courier_name.map fedez_to_fedex := by
  refine ⟨hasFedez_replace s.data, ?_, ?_⟩
  · exact congrArg String.mk (replaceFedez_no_occurrence _ (hasFedez_replace s.data))
  · intro rows
    simp [transform_dim_rider, List.map_map]

/-! ## Lemmas on the product-dimension duplicate handling -/

instance : IsTotal ProductRow dedupLE :=
  ⟨fun a b => by
    unfold dedupLE
    rcases lt_trichotomy a.product_code.data b.product_code.data with h | h | h
    · exact Or.inl (Or.inl h)
    · have hs : a.product_code = b.product_code := String.ext h
      rcases lt_trichotomy (non_null_count b) (non_null_count a) with h2 | h2 | h2
      · exact Or.inl (Or.inr ⟨hs, Or.inl h2⟩)
      · rcases Int.le_total b.updated_at a.updated_at with h3 | h3
        · exact Or.inl (Or.inr ⟨hs, Or.inr ⟨h2.symm, h3⟩⟩)
        · exact Or.inr (Or.inr ⟨hs.symm, Or.inr ⟨h2, h3⟩⟩)
      · exact Or.inr (Or.inr ⟨hs.symm, Or.inl h2⟩)
    · exact Or.inr (Or.inl h)⟩

instance : IsTrans ProductRow dedupLE :=
  ⟨fun a b c h1 h2 => by
    unfold dedupLE at h1 h2 ⊢
    rcases h1 with h1 | ⟨e1, i1⟩
    · rcases h2 with h2 | ⟨e2, -⟩
      · exact Or.inl (lt_trans h1 h2)
      · exact Or.inl (by rw [← e2]; exact h1)
    · rcases h2 with h2 | ⟨e2, i2⟩
      · exact Or.inl (by rw [e1]; exact h2)
      · refine Or.inr ⟨e1.trans e2, ?_⟩
        rcases i1 with i1 | ⟨n1, t1⟩
        · rcases i2 with i2 | ⟨n2, -⟩
          · exact Or.inl (lt_trans i2 i1)
          · exact Or.inl (by rw [← n2]; exact i1)
        · rcases i2 with i2 | ⟨n2, t2⟩
          · exact Or.inl (by rw [n1]; exact i2)
          · exact Or.inr ⟨n1.trans n2, le_trans t2 t1⟩⟩

/-- One-step unfolding of `drop_duplicates_by_code`. -/
lemma drop_duplicates_by_code_cons (a : ProductRow) (l : List ProductRow)
    (seen : List String) :
    drop_duplicates_by_code (a :: l) seen
      = if a.product_code ∈ seen then drop_duplicates_by_code l seen
        else a :: drop_duplicates_by_code l (a.product_code :: seen) := rfl

/-- Kept rows come from the scanned list. -/
lemma mem_of_mem_ddc : ∀ {l : List ProductRow} {seen : List String} {r : ProductRow},
    r ∈ drop_duplicates_by_code l seen → r ∈ l := by
  intro l
  induction l with
  | nil => intro seen r h; simp [drop_duplicates_by_code] at h
  | cons a l ih =>
    intro seen r h
    rw [drop_duplicates_by_code_cons] at h
    by_cases hc : a.product_code ∈ seen
    · rw [if_pos hc] at h
      exact List.mem_cons_of_mem a (ih h)
    · rw [if_neg hc] at h
      rcases List.mem_cons.mp h with rfl | h
      · exact List.mem_cons_self r l
      · exact List.mem_cons_of_mem a (ih h)

/-- A kept row is the first of its `product_code` in the scanned list, and
its code was not previously seen. -/
lemma ddc_first : ∀ {l : List ProductRow} {seen : List String} {r : ProductRow},
    r ∈ drop_duplicates_by_code l seen →
    r.product_code ∉ seen
      ∧ ∃ l1 l2, l = l1 ++ r :: l2 ∧ ∀ x ∈ l1, x.product_code ≠ r.product_code := by
  intro l
  induction l with
  | nil => intro seen r h; simp [drop_duplicates_by_code] at h
  | cons a l ih =>
    intro seen r h
    rw [drop_duplicates_by_code_cons] at h
    by_cases hc : a.product_code ∈ seen
    · rw [if_pos hc] at h
      obtain ⟨hns, l1, l2, rfl, hl1⟩ := ih h
      refine ⟨hns, a :: l1, l2, rfl, ?_⟩
      intro x hx
      rcases List.mem_cons.mp hx with rfl | hx
      · exact fun he => hns (he ▸ hc)
      · exact hl1 x hx
    · rw [if_neg hc] at h
      rcases List.mem_cons.mp h with rfl | h
      · exact ⟨hc, [], l, rfl, by simp⟩
      · obtain ⟨hns, l1, l2, rfl, hl1⟩ := ih h
        have hne : r.product_code ∉ seen := fun hs => hns (List.mem_cons_of_mem _ hs)
        have hra : r.product_code ≠ a.product_code := by
          intro he
          exact hns (by rw [he]; exact List.mem_cons_self _ _)
        refine ⟨hne, a :: l1, l2, rfl, ?_⟩
        intro x hx
        rcases List.mem_cons.mp hx with rfl | hx
        · exact fun he => hra he.symm
        · exact hl1 x hx

/-- Kept rows carry pairwise-distinct `product_code`s. -/
lemma ddc_codes_nodup : ∀ (l : List ProductRow) (seen : List String),
    ((drop_duplicates_by_code l seen).map fun r => r.product_code).Nodup := by
  intro l
  induction l with
  | nil => intro seen; simp [drop_duplicates_by_code]
  | cons a l ih =>
    intro seen
    rw [drop_duplicates_by_code_cons]
    by_cases hc : a.product_code ∈ seen
    · rw [if_pos hc]; exact ih seen
    · rw [if_neg hc]
      simp only [List.map_cons, List.nodup_cons]
      refine ⟨?_, ih _⟩
      intro hmem
      obtain ⟨x, hx, he⟩ := List.mem_map.mp hmem
      exact (ddc_first hx).1 (by rw [he]; exact List.mem_cons_self _ _)

/-- Every unseen code present in the scanned list is represented among the
kept rows. -/
lemma ddc_exists : ∀ (l : List ProductRow) (seen : List String) (c : String),
    (∃ x ∈ l, x.product_code = c) → c ∉ seen →
    ∃ r ∈ drop_duplicates_by_code l seen, r.product_code = c := by
  intro l
  induction l with
  | nil =>
    rintro seen c ⟨x, hx, -⟩ -
    simp at hx
  | cons a l ih =>
    rintro seen c ⟨x, hx, hxc⟩ hcs
    rw [drop_duplicates_by_code_cons]
    by_cases hc : a.product_code ∈ seen
    · rw [if_pos hc]
      rcases List.mem_cons.mp hx with rfl | hx
      · exact absurd (hxc ▸ hc) hcs
      · exact ih seen c ⟨x, hx, hxc⟩ hcs
    · rw [if_neg hc]
      by_cases hac : a.product_code = c
      · exact ⟨a, List.mem_cons_self _ _, hac⟩
      · rcases List.mem_cons.mp hx with rfl | hx
        · exact absurd hxc hac
        · obtain ⟨r, hr, hrc⟩ := ih _ c ⟨x, hx, hxc⟩ (by
            intro hmem
            rcases List.mem_cons.mp hmem with he | hmem
            · exact hac he.symm
            · exact hcs hmem)
          exact ⟨r, List.mem_cons_of_mem a hr, hrc⟩

/-- C3 amended: for every `product_code` present in the input, the duplicate
handling of `transform_dim_product` keeps exactly one row with that code,
and the kept row dominates every same-code input row lexicographically by
(number of non-null fields, then `updated_at`) — completeness is the primary
criterion and the later `updated_at` only the tie-break, not the other way
around. -/
theorem product_dedup_amended (df : List ProductRow) (c : String)
    (hc : ∃ x ∈ df, x.product_code = c) :
    (∃ r ∈ transform_dim_product_dedup df, r.product_code = c
        ∧ ∀ r' ∈ transform_dim_product_dedup df, r'.product_code = c → r' = r)
    ∧ ∀ r ∈ transform_dim_product_dedup df, ∀ x ∈ df,
        x.product_code = r.product_code →
        non_null_count x < non_null_count r
          ∨ (non_null_count x = non_null_count r ∧ x.updated_at ≤ r.updated_at) := by
  constructor
  · obtain ⟨x, hx, hxc⟩ := hc
    obtain ⟨r, hr, hrc⟩ := ddc_exists (df.insertionSort dedupLE) [] c
      ⟨x, (List.mem_insertionSort dedupLE).mpr hx, hxc⟩ (by simp)
    refine ⟨r, hr, hrc, ?_⟩
    intro r' hr' hrc'
    exact List.inj_on_of_nodup_map (ddc_codes_nodup (df.insertionSort dedupLE) [])
      hr' hr (by rw [hrc', hrc])
  · intro r hr x hx hxc
    obtain ⟨-, l1, l2, hsplit, hl1⟩ := ddc_first hr
    have hsorted : List.Sorted dedupLE (df.insertionSort dedupLE) :=
      List.sorted_insertionSort dedupLE df
    have hxs : x ∈ l1 ++ r :: l2 := by
      rw [← hsplit]
      exact (List.mem_insertionSort dedupLE).mpr hx
    rcases List.mem_append.mp hxs with hx1 | hx2
    · exact absurd hxc (hl1 x hx1)
    · rcases List.mem_cons.mp hx2 with rfl | hx2
      · exact Or.inr ⟨rfl, le_refl _⟩
      · have hp : dedupLE r x := by
          rw [hsplit] at hsorted
          have hpc := (List.pairwise_append.mp hsorted).2.1
          rw [List.pairwise_cons] at hpc
          exact hpc.1 x hx2
        rcases hp with hlt | ⟨-, hin⟩
        · rw [hxc] at hlt
          exact (lt_irrefl _ hlt).elim
        · rcases hin with hin | ⟨hn, ht⟩
          · exact Or.inl hin
          · exact Or.inr ⟨hn.symm, ht⟩

/-- C3 counterexample: two rows share `product_code = "P1"`; row one has the
later `updated_at` (2 > 1) but a null `price`, row two is more complete with
the earlier stamp — the transformer keeps row two, not the later-updated
row one, because the sort ranks `non_null_count` before `updated_at`. -/
theorem product_dedup_counterexample :
    transform_dim_product_dedup
        [⟨some 1, "A", "C", "P1", none, some 0, 2⟩,
          ⟨some 2, "B", "C", "P1", some 5, some 0, 1⟩]
      = [⟨some 2, "B", "C", "P1", some 5, some 0, 1⟩]
    ∧ ((1 : ℤ) < 2
        ∧ non_null_count (⟨some 1, "A", "C", "P1", none, some 0, 2⟩ : ProductRow)
            < non_null_count (⟨some 2, "B", "C", "P1", some 5, some 0, 1⟩ : ProductRow)) := by
  constructor
  · rfl
  · constructor
    · decide
    · decide

/-- Witness for the amended product-dedup theorem: the kept more-complete row
dominates the dropped later-updated row. -/
theorem product_dedup_amended_witness :
    non_null_count (⟨some 1, "A", "C", "P1", none, some 0, 2⟩ : ProductRow)
        < non_null_count (⟨some 2, "B", "C", "P1", some 5, some 0, 1⟩ : ProductRow)
      ∨ (non_null_count (⟨some 1, "A", "C", "P1", none, some 0, 2⟩ : ProductRow)
            = non_null_count (⟨some 2, "B", "C", "P1", some 5, some 0, 1⟩ : ProductRow)
          ∧ (2 : ℤ) ≤ 1) :=
  (product_dedup_amended
      [⟨some 1, "A", "C", "P1", none, some 0, 2⟩,
        ⟨some 2, "B", "C", "P1", some 5, some 0, 1⟩] "P1"
      ⟨⟨some 1, "A", "C", "P1", none, some 0, 2⟩, by simp, rfl⟩).2
    ⟨some 2, "B", "C", "P1", some 5, some 0, 1⟩ (by decide)
    ⟨some 1, "A", "C", "P1", none, some 0, 2⟩ (by simp) rfl

/-! ## Lemmas on the fact-sales pipeline -/

lemma truncToInt_intCast (n : ℤ) : truncToInt (n : ℚ) = n := by
  unfold truncToInt
  split
  · exact Int.floor_intCast n
  · rw [← Int.cast_neg, Int.floor_intCast]
    exact neg_neg n

/-- Pull a member of one list back along an equality of projected maps. -/
lemma mem_proj_back {α β γ : Type} {L : List α} {D : List γ} {f : α → β} {g : γ → β}
    (h : L.map f = D.map g) : ∀ x ∈ L, ∃ y ∈ D, g y = f x := by
  intro x hx
  have hm : f x ∈ D.map g := by
    rw [← h]
    exact List.mem_map_of_mem f hx
  obtain ⟨y, hy, he⟩ := List.mem_map.mp hm
  exact ⟨y, hy, he⟩

lemma fillColQuantity_map_proj {β : Type} (df : List SalesWork) (f : SalesWork → β)
    (hf : ∀ r v, f { r with quantity := v } = f r) :
    (fillColQuantity df).map f = df.map f := by
  unfold fillColQuantity
  split
  · rw [List.map_map]
    exact List.map_congr_left fun r _ => hf r _
  · rfl

lemma fillColUnitPrice_map_proj {β : Type} (df : List SalesWork) (f : SalesWork → β)
    (hf : ∀ r v, f { r with unit_price := v } = f r) :
    (fillColUnitPrice df).map f = df.map f := by
  unfold fillColUnitPrice
  split
  · rw [List.map_map]
    exact List.map_congr_left fun r _ => hf r _
  · rfl

lemma fillColSalesAmount_map_proj {β : Type} (df : List SalesWork) (f : SalesWork → β)
    (hf : ∀ r v, f { r with sales_amount := v } = f r) :
    (fillColSalesAmount df).map f = df.map f := by
  unfold fillColSalesAmount
  split
  · rw [List.map_map]
    exact List.map_congr_left fun r _ => hf r _
  · rfl

/-- The three mean-fill steps touch only the three measure columns: any
projection reading none of them passes through unchanged. -/
lemma fills_map_proj {β : Type} (df : List SalesWork) (f : SalesWork → β)
    (hq : ∀ r v, f { r with quantity := v } = f r)
    (hp : ∀ r v, f { r with unit_price := v } = f r)
    (hs : ∀ r v, f { r with sales_amount := v } = f r) :
    (fillColSalesAmount (fillColUnitPrice (fillColQuantity df))).map f = df.map f := by
  rw [fillColSalesAmount_map_proj _ f hs, fillColUnitPrice_map_proj _ f hp,
    fillColQuantity_map_proj _ f hq]

/-- The measure/date steps leave the key triple of each row unchanged. -/
lemma pipe_map_keys (df : List SalesRaw) :
    (_standardize_sales_date (_calculate_sales_measures df)).map
        (fun r => (r.customer_key, r.product_key, r.rider_key))
      = df.map fun r => (r.customer_key, r.product_key, r.rider_key) := by
  unfold _standardize_sales_date _calculate_sales_measures
  rw [List.map_map, List.map_map]
  rfl

/-- After the measure/date steps, each row's `date_key` is the standardized
delivery date of the corresponding input row. -/
lemma pipe_map_date (df : List SalesRaw) :
    (_standardize_sales_date (_calculate_sales_measures df)).map (fun r => r.date_key)
      = df.map fun r => _standardize_sales_date_key r.date_key := by
  unfold _standardize_sales_date _calculate_sales_measures
  rw [List.map_map, List.map_map]
  rfl

/-- Key triples survive the fills and the measure/date steps. -/
lemma fills_pipe_keys (df : List SalesRaw) :
    (fillColSalesAmount (fillColUnitPrice (fillColQuantity
          (_standardize_sales_date (_calculate_sales_measures df))))).map
        (fun r => (r.customer_key, r.product_key, r.rider_key))
      = df.map fun r => (r.customer_key, r.product_key, r.rider_key) := by
  rw [fills_map_proj _ (fun r => (r.customer_key, r.product_key, r.rider_key))
    (fun _ _ => rfl) (fun _ _ => rfl) (fun _ _ => rfl), pipe_map_keys]

/-- Date keys survive the fills and the measure/date steps. -/
lemma fills_pipe_date (df : List SalesRaw) :
    (fillColSalesAmount (fillColUnitPrice (fillColQuantity
          (_standardize_sales_date (_calculate_sales_measures df))))).map
        (fun r => r.date_key)
      = df.map fun r => _standardize_sales_date_key r.date_key := by
  rw [fills_map_proj _ (fun r => r.date_key)
    (fun _ _ => rfl) (fun _ _ => rfl) (fun _ _ => rfl), pipe_map_date]

/-- When every input row carries all three keys, the `dropna` filter keeps
every row. -/
lemma tmv_eq_fills (df : List SalesRaw)
    (h : ∀ r ∈ df, r.customer_key.isSome ∧ r.product_key.isSome ∧ r.rider_key.isSome) :
    _transform_missing_values (_standardize_sales_date (_calculate_sales_measures df))
      = fillColSalesAmount (fillColUnitPrice (fillColQuantity
          (_standardize_sales_date (_calculate_sales_measures df)))) := by
  unfold _transform_missing_values
  apply List.filter_eq_self.mpr
  intro r' hr'
  obtain ⟨r0, hr0, he⟩ := mem_proj_back (fills_pipe_keys df) r' hr'
  obtain ⟨h1, h2, h3⟩ := h r0 hr0
  have e1 : r0.customer_key = r'.customer_key := congrArg (fun t => t.1) he
  have e2 : r0.product_key = r'.product_key := congrArg (fun t => t.2.1) he
  have e3 : r0.rider_key = r'.rider_key := congrArg (fun t => t.2.2) he
  unfold keysPresent
  rw [← e1, ← e2, ← e3, h1, h2, h3]
  rfl

lemma fillColQuantity_id (df : List SalesWork) (h : ∀ r ∈ df, r.quantity.isSome) :
    fillColQuantity df = df := by
  unfold fillColQuantity
  rw [if_neg]
  intro hany
  simp only [List.any_eq_true, List.mem_map] at hany
  obtain ⟨-, ⟨r, hr, rfl⟩, hnone⟩ := hany
  rw [Option.isNone_iff_eq_none] at hnone
  have hs := h r hr
  rw [hnone] at hs
  simp at hs

lemma fillColUnitPrice_id (df : List SalesWork) (h : ∀ r ∈ df, r.unit_price.isSome) :
    fillColUnitPrice df = df := by
  unfold fillColUnitPrice
  rw [if_neg]
  intro hany
  simp only [List.any_eq_true, List.mem_map] at hany
  obtain ⟨-, ⟨r, hr, rfl⟩, hnone⟩ := hany
  rw [Option.isNone_iff_eq_none] at hnone
  have hs := h r hr
  rw [hnone] at hs
  simp at hs

lemma fillColSalesAmount_id (df : List SalesWork) (h : ∀ r ∈ df, r.sales_amount.isSome) :
    fillColSalesAmount df = df := by
  unfold fillColSalesAmount
  rw [if_neg]
  intro hany
  simp only [List.any_eq_true, List.mem_map] at hany
  obtain ⟨-, ⟨r, hr, rfl⟩, hnone⟩ := hany
  rw [Option.isNone_iff_eq_none] at hnone
  have hs := h r hr
  rw [hnone] at hs
  simp at hs

/-- Membership in the measure/date steps, resolved to the input row. -/
lemma mem_pipe (df : List SalesRaw) (r' : SalesWork)
    (h : r' ∈ _standardize_sales_date (_calculate_sales_measures df)) :
    ∃ r0 ∈ df,
      r'.customer_key = r0.customer_key ∧ r'.product_key = r0.product_key
        ∧ r'.rider_key = r0.rider_key
        ∧ r'.date_key = _standardize_sales_date_key r0.date_key
        ∧ r'.order_number = r0.order_number
        ∧ r'.quantity = r0.quantity ∧ r'.unit_price = r0.unit_price
        ∧ r'.sales_amount
            = (match r0.quantity, r0.unit_price with
                | some q, some p => some (round2 (q * p))
                | _, _ => none) := by
  unfold _standardize_sales_date _calculate_sales_measures at h
  rw [List.map_map] at h
  obtain ⟨r0, hr0, rfl⟩ := List.mem_map.mp h
  exact ⟨r0, hr0, rfl, rfl, rfl, rfl, rfl, rfl, rfl, rfl⟩

lemma fillColQuantity_exists_map (df : List SalesWork) :
    ∃ F : SalesWork → SalesWork, fillColQuantity df = df.map F
      ∧ ∀ r, (F r).customer_key = r.customer_key ∧ (F r).product_key = r.product_key
          ∧ (F r).rider_key = r.rider_key
          ∧ (F r).unit_price = r.unit_price ∧ (F r).sales_amount = r.sales_amount
          ∧ ∀ v, r.quantity = some v → (F r).quantity = some v := by
  unfold fillColQuantity
  split
  · refine ⟨fun r =>
      { r with quantity := r.quantity.orElse (fun _ => colMean (df.map fun r => r.quantity)) },
      rfl, ?_⟩
    intro r
    refine ⟨rfl, rfl, rfl, rfl, rfl, ?_⟩
    intro v hv
    simp [hv]
  · exact ⟨id, (List.map_id df).symm,
      fun r => ⟨rfl, rfl, rfl, rfl, rfl, fun v hv => hv⟩⟩

lemma fillColUnitPrice_exists_map (df : List SalesWork) :
    ∃ F : SalesWork → SalesWork, fillColUnitPrice df = df.map F
      ∧ ∀ r, (F r).customer_key = r.customer_key ∧ (F r).product_key = r.product_key
          ∧ (F r).rider_key = r.rider_key
          ∧ (F r).quantity = r.quantity ∧ (F r).sales_amount = r.sales_amount
          ∧ ∀ v, r.unit_price = some v → (F r).unit_price = some v := by
  unfold fillColUnitPrice
  split
  · refine ⟨fun r =>
      { r with unit_price := r.unit_price.orElse (fun _ => colMean (df.map fun r => r.unit_price)) },
      rfl, ?_⟩
    intro r
    refine ⟨rfl, rfl, rfl, rfl, rfl, ?_⟩
    intro v hv
    simp [hv]
  · exact ⟨id, (List.map_id df).symm,
      fun r => ⟨rfl, rfl, rfl, rfl, rfl, fun v hv => hv⟩⟩

lemma fillColSalesAmount_exists_map (df : List SalesWork) :
    ∃ F : SalesWork → SalesWork, fillColSalesAmount df = df.map F
      ∧ ∀ r, (F r).customer_key = r.customer_key ∧ (F r).product_key = r.product_key
          ∧ (F r).rider_key = r.rider_key
          ∧ (F r).quantity = r.quantity ∧ (F r).unit_price = r.unit_price
          ∧ ∀ v, r.sales_amount = some v → (F r).sales_amount = some v := by
  unfold fillColSalesAmount
  split
  · refine ⟨fun r =>
      { r with sales_amount := r.sales_amount.orElse (fun _ => colMean (df.map fun r => r.sales_amount)) },
      rfl, ?_⟩
    intro r
    refine ⟨rfl, rfl, rfl, rfl, rfl, ?_⟩
    intro v hv
    simp [hv]
  · exact ⟨id, (List.map_id df).symm,
      fun r => ⟨rfl, rfl, rfl, rfl, rfl, fun v hv => hv⟩⟩

/-- The three mean-fill steps act row-wise (each is a `map` once its column
mean is fixed): the composite map keeps every key and never alters a
non-null `quantity`, `unit_price` or `sales_amount` cell. -/
lemma fills_exists_map (df : List SalesWork) :
    ∃ F : SalesWork → SalesWork,
      fillColSalesAmount (fillColUnitPrice (fillColQuantity df)) = df.map F
      ∧ ∀ r, (F r).customer_key = r.customer_key ∧ (F r).product_key = r.product_key
          ∧ (F r).rider_key = r.rider_key
          ∧ (∀ v, r.quantity = some v → (F r).quantity = some v)
          ∧ (∀ v, r.unit_price = some v → (F r).unit_price = some v)
          ∧ ∀ v, r.sales_amount = some v → (F r).sales_amount = some v := by
  obtain ⟨F1, h1, p1⟩ := fillColQuantity_exists_map df
  obtain ⟨F2, h2, p2⟩ := fillColUnitPrice_exists_map (fillColQuantity df)
  obtain ⟨F3, h3, p3⟩ := fillColSalesAmount_exists_map (fillColUnitPrice (fillColQuantity df))
  refine ⟨F3 ∘ F2 ∘ F1, by rw [h3, h2, h1, List.map_map, List.map_map]; rfl, ?_⟩
  intro r
  obtain ⟨a1, b1, c1, d1, e1, q1⟩ := p1 r
  obtain ⟨a2, b2, c2, d2, e2, q2⟩ := p2 (F1 r)
  obtain ⟨a3, b3, c3, d3, e3, q3⟩ := p3 (F2 (F1 r))
  refine ⟨by rw [Function.comp_apply, Function.comp_apply, a3, a2, a1],
    by rw [Function.comp_apply, Function.comp_apply, b3, b2, b1],
    by rw [Function.comp_apply, Function.comp_apply, c3, c2, c1], ?_, ?_, ?_⟩
  · intro v hv
    show (F3 (F2 (F1 r))).quantity = some v
    rw [d3, d2]
    exact q1 v hv
  · intro v hv
    show (F3 (F2 (F1 r))).unit_price = some v
    rw [e3]
    exact q2 v (by rw [d1]; exact hv)
  · intro v hv
    show (F3 (F2 (F1 r))).sales_amount = some v
    exact q3 v (by rw [e2, e1]; exact hv)

/-- C2 amended (per row): in any batch, an output row whose source row (among
the rows surviving the key filter, matched by position) had a parsed whole
`quantity` and a parsed `unit_price` satisfies
`sales_amount = round2(quantity * unit_price)` — imputation never touches
non-null cells, so clean rows keep the invariant even in batches where other
rows are imputed; the counterexample shows imputed rows and truncated
fractional quantities need not. -/
theorem sales_amount_invariant_amended (df : List SalesRaw) (i : ℕ) (r0 : SalesRaw)
    (out : FactRow) (n : ℤ) (p : ℚ)
    (hk : (df.filter fun r =>
        r.customer_key.isSome && r.product_key.isSome && r.rider_key.isSome).get? i
      = some r0)
    (ho : ((transform_fact_sales (some df)).getD []).get? i = some out)
    (hq : r0.quantity = some (n : ℚ)) (hp : r0.unit_price = some p) :
    out.unit_price = some p ∧ out.quantity = n
      ∧ out.sales_amount = some (round2 ((out.quantity : ℚ) * p)) := by
  have hpipe : _standardize_sales_date (_calculate_sales_measures df) = df.map pipeRowOf := by
    unfold _standardize_sales_date _calculate_sales_measures
    rw [List.map_map]
    rfl
  obtain ⟨F, hF, hFp⟩ := fills_exists_map (df.map pipeRowOf)
  unfold transform_fact_sales at ho
  simp only [Option.getD_some] at ho
  unfold _transform_missing_values at ho
  rw [hpipe, hF, List.map_map, List.filter_map, List.map_map] at ho
  rw [List.filter_congr (q := fun r =>
      r.customer_key.isSome && r.product_key.isSome && r.rider_key.isSome)] at ho
  · rw [List.get?_map, hk] at ho
    simp only [Option.map_some'] at ho
    replace ho := Option.some.inj ho
    subst ho
    obtain ⟨-, -, -, qpres, ppres, spres⟩ := hFp (pipeRowOf r0)
    have hq' : (F (pipeRowOf r0)).quantity = some ((n : ℤ) : ℚ) := qpres _ hq
    have hp' : (F (pipeRowOf r0)).unit_price = some p := ppres _ hp
    have hs' : (F (pipeRowOf r0)).sales_amount = some (round2 ((n : ℚ) * p)) := by
      refine spres _ ?_
      show (match r0.quantity, r0.unit_price with
        | some q, some p => some (round2 (q * p))
        | _, _ => none) = some (round2 ((n : ℚ) * p))
      rw [hq, hp]
    have hquant : truncToInt ((F (pipeRowOf r0)).quantity.getD 0) = n := by
      rw [hq']
      exact truncToInt_intCast n
    refine ⟨hp', hquant, ?_⟩
    show (F (pipeRowOf r0)).sales_amount
      = some (round2 ((truncToInt ((F (pipeRowOf r0)).quantity.getD 0) : ℚ) * p))
    rw [hquant]
    exact hs'
  · intro r _
    obtain ⟨ck, pk, rk, -, -, -⟩ := hFp (pipeRowOf r)
    show keysPresent (F (pipeRowOf r)) = _
    unfold keysPresent
    rw [ck, pk, rk]
    rfl

/-- C2 counterexample: in a batch whose third row has a null quantity, the
mean imputation fills `quantity` (mean 3/2, truncated to 1 by the final
integer cast) and `sales_amount` (mean 55/3) independently, so the imputed
row carries `sales_amount = 55/3 ≠ round2(1 * 10) = 10`; the fourth row's
fractional quantity 5/2 is truncated to 2 while its `sales_amount` stays 25,
so `25 ≠ round2(2 * 10) = 20`. -/
theorem sales_amount_invariant_counterexample :
    ((transform_fact_sales (some
        [⟨some 1, some 1, some 1, some "2024-01-02", "O1", some 1, some 10⟩,
          ⟨some 1, some 1, some 1, some "2024-01-02", "O2", some 1, some 20⟩,
          ⟨some 1, some 1, some 1, some "2024-01-02", "O3", none, some 10⟩,
          ⟨some 1, some 1, some 1, some "2024-01-02", "O4", some (5/2), some 10⟩])).getD
        []).map (fun r => (r.quantity, r.unit_price, r.sales_amount))
      = [(1, some 10, some 10), (1, some 20, some 20), (1, some 10, some (55/3)),
          (2, some 10, some 25)]
    ∧ some (round2 ((1 : ℚ) * 10)) ≠ some ((55 : ℚ)/3)
    ∧ some (round2 ((2 : ℚ) * 10)) ≠ some (25 : ℚ) := by
  have hd : _standardize_sales_date_key (some "2024-01-02") = 20240102 := by decide
  refine ⟨?_, ?_, ?_⟩
  · norm_num [transform_fact_sales, _calculate_sales_measures, _standardize_sales_date,
      _transform_missing_values, fillColQuantity, fillColUnitPrice, fillColSalesAmount,
      keysPresent, colMean, List.filterMap, hd, round2, roundHalfEvenInt, truncToInt]
  · norm_num [round2, roundHalfEvenInt]
  · norm_num [round2, roundHalfEvenInt]

/-- Witness for the per-row sales-amount theorem at row 0 (the clean row
`O1`) of the counterexample's own mixed batch. -/
theorem sales_amount_invariant_amended_witness :
    (⟨1, 1, 1, 20240102, "O1", 1, some 10, some 10⟩ : FactRow).unit_price = some 10
    ∧ (⟨1, 1, 1, 20240102, "O1", 1, some 10, some 10⟩ : FactRow).quantity = 1
    ∧ (⟨1, 1, 1, 20240102, "O1", 1, some 10, some 10⟩ : FactRow).sales_amount
        = some (round2
            (((⟨1, 1, 1, 20240102, "O1", 1, some 10, some 10⟩ : FactRow).quantity : ℚ)
              * 10)) :=
  sales_amount_invariant_amended
    [⟨some 1, some 1, some 1, some "2024-01-02", "O1", some 1, some 10⟩,
      ⟨some 1, some 1, some 1, some "2024-01-02", "O2", some 1, some 20⟩,
      ⟨some 1, some 1, some 1, some "2024-01-02", "O3", none, some 10⟩,
      ⟨some 1, some 1, some 1, some "2024-01-02", "O4", some (5/2), some 10⟩]
    0 ⟨some 1, some 1, some 1, some "2024-01-02", "O1", some 1, some 10⟩
    ⟨1, 1, 1, 20240102, "O1", 1, some 10, some 10⟩ 1 10
    rfl
    (by
      have hd : _standardize_sales_date_key (some "2024-01-02") = 20240102 := by decide
      have he : (transform_fact_sales (some
          [⟨some 1, some 1, some 1, some "2024-01-02", "O1", some 1, some 10⟩,
            ⟨some 1, some 1, some 1, some "2024-01-02", "O2", some 1, some 20⟩,
            ⟨some 1, some 1, some 1, some "2024-01-02", "O3", none, some 10⟩,
            ⟨some 1, some 1, some 1, some "2024-01-02", "O4", some (5/2), some 10⟩])).getD []
          = [⟨1, 1, 1, 20240102, "O1", 1, some 10, some 10⟩,
              ⟨1, 1, 1, 20240102, "O2", 1, some 20, some 20⟩,
              ⟨1, 1, 1, 20240102, "O3", 1, some 10, some (55/3)⟩,
              ⟨1, 1, 1, 20240102, "O4", 2, some 10, some 25⟩] := by
        norm_num [transform_fact_sales, _calculate_sales_measures, _standardize_sales_date,
          _transform_missing_values, fillColQuantity, fillColUnitPrice, fillColSalesAmount,
          keysPresent, colMean, List.filterMap, hd, round2, roundHalfEvenInt, truncToInt]
      rw [he]
      rfl)
    (by norm_num) rfl

/-- C4 amended: for a batch whose rows all carry their three keys, the final
`date_key` column of `transform_fact_sales` is exactly the per-row
`_standardize_sales_date_key` — a parsed delivery date becomes its `YYYYMMDD`
integer and an unparseable one the sentinel `0`.  No mode imputation touches
`date_key`: this version's `_transform_missing_values` imputes only
`quantity`, `unit_price` and `sales_amount`. -/
theorem date_key_no_mode_imputation (df : List SalesRaw)
    (h : ∀ r ∈ df, r.customer_key.isSome ∧ r.product_key.isSome ∧ r.rider_key.isSome) :
    ((transform_fact_sales (some df)).getD []).map (fun r => r.date_key)
      = df.map fun r => _standardize_sales_date_key r.date_key := by
  unfold transform_fact_sales
  simp only [Option.getD_some]
  rw [List.map_map, tmv_eq_fills df h]
  exact fills_pipe_date df

/-- C4 counterexample: the batch's most frequent parsed date key is
`20240102`, yet the row whose delivery date fails every format keeps the
sentinel `0`, not the mode. -/
theorem date_key_mode_counterexample :
    ((transform_fact_sales (some
        [⟨some 1, some 1, some 1, some "garbage!", "G1", some 1, some 1⟩,
          ⟨some 1, some 1, some 1, some "2024-01-02", "G2", some 1, some 1⟩,
          ⟨some 1, some 1, some 1, some "2024-01-02", "G3", some 1, some 1⟩])).getD
        []).map (fun r => r.date_key)
      = [0, 20240102, 20240102]
    ∧ parse_date_formats (some "garbage!") = none
    ∧ (0 : ℤ) ≠ 20240102 := by
  refine ⟨?_, by decide, by decide⟩
  unfold transform_fact_sales
  simp only [Option.getD_some]
  rw [List.map_map, tmv_eq_fills _ (by decide)]
  show (fillColSalesAmount (fillColUnitPrice (fillColQuantity
      (_standardize_sales_date (_calculate_sales_measures _))))).map (fun r => r.date_key) = _
  rw [fills_pipe_date]
  decide

/-- Witness for the no-mode-imputation theorem on a one-row batch. -/
theorem date_key_no_mode_imputation_witness :
    ((transform_fact_sales (some
        [⟨some 2, some 2, some 2, some "2021-05-10", "W1", some 1, some 1⟩])).getD
        []).map (fun r => r.date_key)
      = ([⟨some 2, some 2, some 2, some "2021-05-10", "W1", some 1, some 1⟩]
            : List SalesRaw).map fun r => _standardize_sales_date_key r.date_key :=
  date_key_no_mode_imputation
    [⟨some 2, some 2, some 2, some "2021-05-10", "W1", some 1, some 1⟩] (by decide)

/-- C5: every row emitted by `transform_fact_sales` owes its three keys to an
input row that carried all of them (no null key is ever emitted), and the
number of emitted rows is exactly the number of input rows with all three
keys present — the rest are dropped. -/
theorem fact_keys_complete (df : List SalesRaw) :
    ((transform_fact_sales (some df)).getD []).length
        = (df.filter fun r =>
            r.customer_key.isSome && r.product_key.isSome && r.rider_key.isSome).length
    ∧ ∀ out ∈ (transform_fact_sales (some df)).getD [],
        ∃ r ∈ df, r.customer_key = some out.customer_key
          ∧ r.product_key = some out.product_key
          ∧ r.rider_key = some out.rider_key := by
  constructor
  · unfold transform_fact_sales
    simp only [Option.getD_some, List.length_map]
    unfold _transform_missing_values
    rw [← List.countP_eq_length_filter, ← List.countP_eq_length_filter]
    have h1 : (fillColSalesAmount (fillColUnitPrice (fillColQuantity
        (_standardize_sales_date (_calculate_sales_measures df))))).countP keysPresent
        = ((fillColSalesAmount (fillColUnitPrice (fillColQuantity
            (_standardize_sales_date (_calculate_sales_measures df))))).map
              fun r => (r.customer_key, r.product_key, r.rider_key)).countP
            fun t => t.1.isSome && t.2.1.isSome && t.2.2.isSome := by
      rw [List.countP_map]
      rfl
    rw [h1, fills_pipe_keys df, List.countP_map]
    rfl
  · intro out hout
    unfold transform_fact_sales at hout
    simp only [Option.getD_some] at hout
    obtain ⟨r', hr', rfl⟩ := List.mem_map.mp hout
    unfold _transform_missing_values at hr'
    obtain ⟨hr'', hkp⟩ := List.mem_filter.mp hr'
    obtain ⟨r0, hr0, he⟩ := mem_proj_back (fills_pipe_keys df) r' hr''
    have e1 : r0.customer_key = r'.customer_key := congrArg (fun t => t.1) he
    have e2 : r0.product_key = r'.product_key := congrArg (fun t => t.2.1) he
    have e3 : r0.rider_key = r'.rider_key := congrArg (fun t => t.2.2) he
    unfold keysPresent at hkp
    simp only [Bool.and_eq_true] at hkp
    obtain ⟨⟨k1, k2⟩, k3⟩ := hkp
    obtain ⟨c, hc⟩ := Option.isSome_iff_exists.mp k1
    obtain ⟨p, hp⟩ := Option.isSome_iff_exists.mp k2
    obtain ⟨k, hk⟩ := Option.isSome_iff_exists.mp k3
    refine ⟨r0, hr0, ?_, ?_, ?_⟩
    · rw [e1, hc]; rfl
    · rw [e2, hp]; rfl
    · rw [e3, hk]; rfl

/-- Witness for the referential-completeness theorem on a two-row batch, one
row lacking its rider key. -/
theorem fact_keys_complete_witness :
    ((transform_fact_sales (some
        [⟨some 7, some 8, some 9, some "2021-05-10", "W5", some 1, some 1⟩,
          ⟨some 7, some 8, none, some "2021-05-10", "W6", some 1, some 1⟩])).getD
        []).length
      = (([⟨some 7, some 8, some 9, some "2021-05-10", "W5", some 1, some 1⟩,
          ⟨some 7, some 8, none, some "2021-05-10", "W6", some 1, some 1⟩] : List SalesRaw).filter
            fun r =>
              r.customer_key.isSome && r.product_key.isSome && r.rider_key.isSome).length :=
  (fact_keys_complete
    [⟨some 7, some 8, some 9, some "2021-05-10", "W5", some 1, some 1⟩,
      ⟨some 7, some 8, none, some "2021-05-10", "W6", some 1, some 1⟩]).1

/-! ## Date-key validity lemmas -/

lemma mkValidDate_valid (y m d : ℕ) (dt : Date) (h : mkValidDate y m d = some dt) :
    validTimestampDate dt.year dt.month dt.day = true := by
  unfold mkValidDate at h
  split at h
  · rename_i hv
    cases h
    exact hv
  · simp at h

lemma parseFmtYMD_valid (s : String) (dt : Date) (h : parseFmtYMD s = some dt) :
    validTimestampDate dt.year dt.month dt.day = true := by
  unfold parseFmtYMD at h
  split at h
  · split at h
    · exact mkValidDate_valid _ _ _ _ h
    · simp at h
  · simp at h

lemma parseFmtMDYSlash_valid (s : String) (dt : Date) (h : parseFmtMDYSlash s = some dt) :
    validTimestampDate dt.year dt.month dt.day = true := by
  unfold parseFmtMDYSlash at h
  split at h
  · split at h
    · exact mkValidDate_valid _ _ _ _ h
    · simp at h
  · simp at h

lemma parseFmtMDYDash_valid (s : String) (dt : Date) (h : parseFmtMDYDash s = some dt) :
    validTimestampDate dt.year dt.month dt.day = true := by
  unfold parseFmtMDYDash at h
  split at h
  · split at h
    · exact mkValidDate_valid _ _ _ _ h
    · simp at h
  · simp at h

/-- Whatever `parse_date_formats` returns is a calendar-valid, in-bounds
date. -/
lemma parse_date_formats_valid (v : Option String) (dt : Date)
    (h : parse_date_formats v = some dt) :
    validTimestampDate dt.year dt.month dt.day = true := by
  rcases v with _ | s
  · simp [parse_date_formats] at h
  · simp only [parse_date_formats] at h
    rcases h1 : parseFmtYMD s with _ | d1
    · rw [h1] at h
      simp only [Option.orElse] at h
      rcases h2 : parseFmtMDYSlash s with _ | d2
      · rw [h2] at h
        simp only [Option.orElse] at h
        exact parseFmtMDYDash_valid s dt h
      · rw [h2] at h
        simp only [Option.orElse] at h
        cases h
        exact parseFmtMDYSlash_valid s _ h2
    · rw [h1] at h
      simp only [Option.orElse] at h
      cases h
      exact parseFmtYMD_valid s _ h1

lemma validTimestampDate_bounds (y m d : ℕ) (h : validTimestampDate y m d = true) :
    (10000000 : ℤ) ≤ (y : ℤ) * 10000 + (m : ℤ) * 100 + (d : ℤ)
      ∧ (y : ℤ) * 10000 + (m : ℤ) * 100 + (d : ℤ) < 100000000 := by
  unfold validTimestampDate at h
  simp only [Bool.and_eq_true, decide_eq_true_eq] at h
  omega

/-- C6 amended: every `transform_dim_date` row has
`date_key = year*10000 + month*100 + day`, an 8-digit integer for the
calendar-valid dates a pandas `Timestamp` can hold; every
`transform_fact_sales` row has either that 8-digit form for a valid parsed
delivery date, or the sentinel `0` for an unparseable one. -/
theorem date_key_formula (dates : List Date)
    (hv : ∀ dt ∈ dates, validTimestampDate dt.year dt.month dt.day = true)
    (df : List SalesRaw) :
    (∀ row ∈ (transform_dim_date (some dates)).getD [],
        row.date_key = (row.year : ℤ) * 10000 + (row.month : ℤ) * 100 + (row.day : ℤ)
          ∧ 10000000 ≤ row.date_key ∧ row.date_key < 100000000)
    ∧ ∀ out ∈ (transform_fact_sales (some df)).getD [],
        out.date_key = 0
          ∨ (10000000 ≤ out.date_key ∧ out.date_key < 100000000
              ∧ ∃ d : Date, validTimestampDate d.year d.month d.day = true
                  ∧ out.date_key = dateKeyInt d) := by
  constructor
  · intro row hrow
    simp only [transform_dim_date] at hrow
    split at hrow
    · simp at hrow
    · simp only [Option.getD_some] at hrow
      obtain ⟨dt, hdt, rfl⟩ := List.mem_map.mp hrow
      exact ⟨rfl, validTimestampDate_bounds _ _ _ (hv dt hdt)⟩
  · intro out hout
    unfold transform_fact_sales at hout
    simp only [Option.getD_some] at hout
    obtain ⟨r', hr', rfl⟩ := List.mem_map.mp hout
    unfold _transform_missing_values at hr'
    have hr'' := List.mem_of_mem_filter hr'
    obtain ⟨r0, hr0, he⟩ := mem_proj_back (fills_pipe_date df) r' hr''
    show r'.date_key = 0 ∨ _
    rw [← he]
    unfold _standardize_sales_date_key
    rcases hp : parse_date_formats r0.date_key with _ | d
    · exact Or.inl rfl
    · right
      have hval := parse_date_formats_valid _ _ hp
      obtain ⟨b1, b2⟩ := validTimestampDate_bounds _ _ _ hval
      exact ⟨b1, b2, d, hval, rfl⟩

/-- C6 counterexample: a fact row with an unparseable delivery date is
emitted with `date_key = 0`, which is not an 8-digit integer and equals no
`year*10000 + month*100 + day` of its (nonexistent) calendar date. -/
theorem date_key_formula_counterexample :
    ((transform_fact_sales (some
        [⟨some 3, some 3, some 3, some "not-a-date", "X1", some 1, some 1⟩])).getD
        []).map (fun r => r.date_key) = [0]
    ∧ ¬((10000000 : ℤ) ≤ 0) := by
  refine ⟨?_, by decide⟩
  unfold transform_fact_sales
  simp only [Option.getD_some]
  rw [List.map_map, tmv_eq_fills _ (by decide)]
  show (fillColSalesAmount (fillColUnitPrice (fillColQuantity
      (_standardize_sales_date (_calculate_sales_measures _))))).map (fun r => r.date_key) = _
  rw [fills_pipe_date]
  decide

/-- Witness for the date-key-formula theorem at the date 2021-01-02. -/
theorem date_key_formula_witness :
    (⟨20210102, ⟨2021, 1, 2⟩, "Saturday", "January", 2, 1, 2021, "Y"⟩
          : DimDateRow).date_key
        = (((2021 : ℕ) : ℤ) * 10000 + ((1 : ℕ) : ℤ) * 100 + ((2 : ℕ) : ℤ))
      ∧ 10000000
          ≤ (⟨20210102, ⟨2021, 1, 2⟩, "Saturday", "January", 2, 1, 2021, "Y"⟩
              : DimDateRow).date_key
      ∧ (⟨20210102, ⟨2021, 1, 2⟩, "Saturday", "January", 2, 1, 2021, "Y"⟩
            : DimDateRow).date_key < 100000000 :=
  (date_key_formula [⟨2021, 1, 2⟩] (by decide) []).1
    ⟨20210102, ⟨2021, 1, 2⟩, "Saturday", "January", 2, 1, 2021, "Y"⟩ (by decide)
